import Mathlib

/-!
Verification development for the task-tracker repository (Next.js + Mongoose).

The data model and the operations below are shallow embeddings of the
repository's route handlers and server actions:

* `src/app/api/tasks/route.ts` (list with filter/sort/pagination, create),
* `src/app/api/tasks/[id]/route.ts` (get, update, delete),
* `src/app/api/categories/route.ts` and `[id]/route.ts`,
* `src/lib/actions/task.actions.ts` and `category.actions.ts`,
* `src/app/api/register/route.ts`,
* the Mongoose schemas in `src/models/*.model.ts` (trim, defaults, lowercase
  email, timestamps).

Modelling conventions: MongoDB object ids and dates are abstracted as `Nat`;
a collection is a `List` of records; `findById` is `List.find?` on the id;
`findByIdAndDelete` / `findOneAndDelete` is `List.eraseP` (one document is
removed); `$set` updates are a field-wise merge; Mongoose runs the schema
setters (`trim` on task title/description, `lowercase` on the user email)
both on saves and on `$set` update paths, and the `timestamps: true` option
refreshes `updatedAt` on every write.  MongoDB's `$regex ... $options: "i"`
search is modelled by `regexFindI`, an unanchored case-insensitive matcher
for patterns made of literal characters and the `.` wildcard (the fragment
of the regex language exercised by the development); `containsCI` is the
separate rendering of the specification's words "case-insensitive literal
substring", to be compared against the code's regex semantics.
-/

namespace TaskTracker

/-! ## Enumerations (src/types, `TaskStatus`, `TaskPriority`, `UserRole`) -/

inductive TaskStatus where
  | TODO
  | IN_PROGRESS
  | COMPLETED
deriving DecidableEq, Repr

inductive TaskPriority where
  | LOW
  | MEDIUM
  | HIGH
deriving DecidableEq, Repr

inductive UserRole where
  | USER
  | ADMIN
deriving DecidableEq, Repr

/-- The string value stored in MongoDB for a task status. -/
def statusStr : TaskStatus → String
  | .TODO => "TODO"
  | .IN_PROGRESS => "IN_PROGRESS"
  | .COMPLETED => "COMPLETED"

/-- The string value stored in MongoDB for a task priority. -/
def priorityStr : TaskPriority → String
  | .LOW => "LOW"
  | .MEDIUM => "MEDIUM"
  | .HIGH => "HIGH"

/-! ## String helpers: lowercasing, trimming, regex search, substring -/

/-- Lowercase every character (model of JS lowercasing / regex flag `i`). -/
def lowerStr (s : String) : String := String.mk (s.data.map Char.toLower)

/-- Drop whitespace from both ends of a character list. -/
def trimChars (l : List Char) : List Char :=
  ((l.dropWhile Char.isWhitespace).reverse.dropWhile Char.isWhitespace).reverse

/-- Model of the Mongoose `trim: true` setter (JS `String.prototype.trim`). -/
def strTrim (s : String) : String := String.mk (trimChars s.data)

/-- One pattern character against one text character, case-insensitively;
`.` is the regex wildcard. -/
def charMatchI (p c : Char) : Bool :=
  p == '.' || p.toLower == c.toLower

/-- Match the whole pattern against a prefix of the text (regex semantics,
literal characters plus the `.` wildcard, case-insensitive). -/
def matchAtI : List Char → List Char → Bool
  | [], _ => true
  | _ :: _, [] => false
  | p :: ps, c :: cs => charMatchI p c && matchAtI ps cs

/-- Unanchored case-insensitive regex search: the pattern matches starting
at some position of the text.  Models MongoDB `$regex pat $options: "i"` for
patterns in the literal-plus-`.` fragment. -/
def regexFindI : List Char → List Char → Bool
  | pat, [] => pat.isEmpty
  | pat, text@(_ :: rest) => matchAtI pat text || regexFindI pat rest

/-- The search predicate used by the task-list query filter. -/
def searchMatches (pat s : String) : Bool := regexFindI pat.data s.data

/-- Case-insensitive character-wise prefix test. -/
def prefixCIL : List Char → List Char → Bool
  | [], _ => true
  | _ :: _, [] => false
  | p :: ps, c :: cs => (p.toLower == c.toLower) && prefixCIL ps cs

/-- Case-insensitive literal-substring occurrence. -/
def containsCIL : List Char → List Char → Bool
  | pat, [] => pat.isEmpty
  | pat, text@(_ :: rest) => prefixCIL pat text || containsCIL pat rest

/-- Rendering of the specification's words: `pat` occurs case-insensitively
as a literal substring of `s`.  This follows the spec text, not the code,
and is compared against `searchMatches` in the theorems below. -/
def containsCI (pat s : String) : Bool := containsCIL pat.data s.data

/-- Characters that are metacharacters in the regex dialect used by the
store's `$regex` search. -/
def regexMetaChars : List Char :=
  ['.', '*', '+', '?', '^', '$', '(', ')', '[', ']', '|', '\\', '\x7b', '\x7d']

/-- `true` when the string contains no regex metacharacter. -/
def noRegexMeta (s : String) : Bool :=
  s.data.all (fun c => !(regexMetaChars.contains c))

/-! ## Data model (src/models/task.model.ts, category.model.ts, user.model.ts) -/

/-- A task document.  Object ids and dates are abstracted as `Nat`. -/
structure Task where
  id : Nat
  title : String
  description : Option String
  status : TaskStatus
  priority : TaskPriority
  dueDate : Option Nat
  categoryId : Option Nat
  userId : Nat
  createdAt : Nat
  updatedAt : Nat
deriving DecidableEq, Repr

/-- A category document. -/
structure Category where
  id : Nat
  name : String
  userId : Nat
  createdAt : Nat
  updatedAt : Nat
deriving DecidableEq, Repr

/-- A user document.  The `email` is stored lowercased by the schema's
`lowercase: true` setter; `password` holds the bcrypt hash. -/
structure UserRec where
  id : Nat
  name : String
  email : String
  password : String
  role : UserRole
  createdAt : Nat
deriving DecidableEq, Repr

/-- The document store: one list per collection, plus a fresh-id counter
standing for MongoDB's object-id generation. -/
structure DB where
  tasks : List Task
  categories : List Category
  users : List UserRec
  nextId : Nat
deriving DecidableEq, Repr

/-- `Task.findById` (src: `Task.findById(id)`). -/
def findTask (db : DB) (tid : Nat) : Option Task :=
  db.tasks.find? (fun t => t.id == tid)

/-- `Category.findById` (src: `Category.findById(id)`). -/
def findCat (db : DB) (cid : Nat) : Option Category :=
  db.categories.find? (fun c => c.id == cid)

/-- `populate("categoryId", "name")`: resolve a referenced category to its
id and name; a missing or dangling reference yields `none`. -/
def resolveCategory (db : DB) : Option Nat → Option (Nat × String)
  | none => none
  | some cid =>
    match findCat db cid with
    | none => none
    | some c => some (c.id, c.name)

/-! ## Task list: filtering, sorting, pagination
(src/app/api/tasks/route.ts `GET`, src/lib/actions/task.actions.ts `getTasks`) -/

/-- Sort fields accepted by the list operation (`sortBy` parameter). -/
inductive SortField where
  | createdAt
  | updatedAt
  | title
  | dueDate
  | priority
  | status
deriving DecidableEq, Repr

/-- Sort direction (`sortOrder` parameter; anything but `"asc"` is `desc`). -/
inductive SortOrder where
  | asc
  | desc
deriving DecidableEq, Repr

/-- Query parameters of the task-list operation.  As in the source, an empty
string means the filter is absent (`if (status) ...`); `page`/`limit`
default to 1/10, sorting to `createdAt` descending. -/
structure TaskQuery where
  status : String := ""
  priority : String := ""
  categoryId : Option Nat := none
  search : String := ""
  page : Nat := 1
  limit : Nat := 10
  sortBy : SortField := SortField.createdAt
  sortOrder : SortOrder := SortOrder.desc
deriving DecidableEq, Repr

/-- `none` (a missing `dueDate`) sorts before any present date, as MongoDB
sorts missing fields first ascending. -/
def optNatLe : Option Nat → Option Nat → Bool
  | none, _ => true
  | some _, none => false
  | some a, some b => a ≤ b

/-- Ascending comparison on the selected sort field.  Enum-valued fields are
stored as strings in MongoDB, so they compare lexicographically by their
string values. -/
def sortKeyLe (f : SortField) (a b : Task) : Bool :=
  match f with
  | .createdAt => a.createdAt ≤ b.createdAt
  | .updatedAt => a.updatedAt ≤ b.updatedAt
  | .title => decide (a.title ≤ b.title)
  | .dueDate => optNatLe a.dueDate b.dueDate
  | .priority => decide (priorityStr a.priority ≤ priorityStr b.priority)
  | .status => decide (statusStr a.status ≤ statusStr b.status)

/-- The comparison handed to the sort: `sort(field: 1)` or `sort(field: -1)`. -/
def taskLe (f : SortField) (o : SortOrder) (a b : Task) : Bool :=
  match o with
  | .asc => sortKeyLe f a b
  | .desc => sortKeyLe f b a

/-- Insert into a sorted list (sorting is delegated to MongoDB by the
source; it is modelled by insertion sort, every property proved below
depending only on the output being a permutation ordered by `le`). -/
def insertLe (le : α → α → Bool) (a : α) : List α → List α
  | [] => [a]
  | b :: l => if le a b then a :: b :: l else b :: insertLe le a l

/-- Sort by the comparison `le` (model of the store's `sort(key: dir)`). -/
def sortLe (le : α → α → Bool) : List α → List α
  | [] => []
  | a :: l => insertLe le a (sortLe le l)

/-- The query filter built by the list operation: always scoped to the
caller's `userId`; `status`, `priority`, `categoryId` narrow by equality
when present; `search` is a case-insensitive `$regex` against title OR
description (a task with no description does not match on description). -/
def matchesFilter (uid : Nat) (q : TaskQuery) (t : Task) : Bool :=
  t.userId == uid
    && (q.status == "" || statusStr t.status == q.status)
    && (q.priority == "" || priorityStr t.priority == q.priority)
    && (match q.categoryId with
        | none => true
        | some c => t.categoryId == some c)
    && (q.search == ""
        || searchMatches q.search t.title
        || (match t.description with
            | none => false
            | some d => searchMatches q.search d))

/-- The list result: the current page of matching tasks plus pagination
metadata, as assembled by the route handler. -/
structure TaskPage where
  items : List Task
  total : Nat
  page : Nat
  limit : Nat
  totalPages : Nat
deriving DecidableEq, Repr

/-- The task-list operation: count the matching documents, sort, then
`skip((page-1)*limit).limit(limit)`; `totalPages` is
`Math.ceil(total/limit)`. -/
def getTasksRaw (db : DB) (uid : Nat) (q : TaskQuery) : TaskPage :=
  let matching := db.tasks.filter (matchesFilter uid q)
  let sorted := sortLe (taskLe q.sortBy q.sortOrder) matching
  { items := (sorted.drop ((q.page - 1) * q.limit)).take q.limit
    total := matching.length
    page := q.page
    limit := q.limit
    totalPages := (matching.length + q.limit - 1) / q.limit }

/-- The client-facing shape of a listed task (Response Shaper): public `id`,
resolved `category` as id and name or `null`. -/
structure FormattedTask where
  id : Nat
  title : String
  description : Option String
  status : TaskStatus
  priority : TaskPriority
  dueDate : Option Nat
  category : Option (Nat × String)
  createdAt : Nat
  updatedAt : Nat
deriving DecidableEq, Repr

/-- Shape one task for the client. -/
def formatTask (db : DB) (t : Task) : FormattedTask :=
  { id := t.id
    title := t.title
    description := t.description
    status := t.status
    priority := t.priority
    dueDate := t.dueDate
    category := resolveCategory db t.categoryId
    createdAt := t.createdAt
    updatedAt := t.updatedAt }

/-- The formatted page returned to the client. -/
def getTasksFormatted (db : DB) (uid : Nat) (q : TaskQuery) : List FormattedTask :=
  (getTasksRaw db uid q).items.map (formatTask db)

/-! ## Single-task get (src/app/api/tasks/[id]/route.ts `GET`,
task.actions.ts `getTaskById`) -/

/-- Outcome of the single-task get.  The source distinguishes a 404
"Task not found" from a 403 "Access denied". -/
inductive GetTaskResult where
  | ok (t : Task) (category : Option (Nat × String))
  | notFound
  | accessDenied
deriving DecidableEq, Repr

/-- `getTaskById`: global `findById`, then `404` when absent, `403` when the
task belongs to another user, else the task with its resolved category. -/
def getTaskById (db : DB) (uid tid : Nat) : GetTaskResult :=
  match findTask db tid with
  | none => GetTaskResult.notFound
  | some t =>
    if t.userId ≠ uid then GetTaskResult.accessDenied
    else GetTaskResult.ok t (resolveCategory db t.categoryId)

/-! ## Category reads (category.actions.ts `getCategories`,
`getCategoryById`; api/categories/route.ts `GET`) -/

/-- `getCategories`: the caller's categories sorted by name ascending. -/
def getCategories (db : DB) (uid : Nat) : List Category :=
  sortLe (fun a b => decide (a.name ≤ b.name))
    (db.categories.filter (fun c => c.userId == uid))

/-- Outcome of the scoped single-category get. -/
inductive GetCatResult where
  | ok (c : Category)
  | notFound
deriving DecidableEq, Repr

/-- `getCategoryById`: `findOne` on id AND owner, so absent and foreign are
both "Category not found". -/
def getCategoryById (db : DB) (uid cid : Nat) : GetCatResult :=
  match db.categories.find? (fun c => c.id == cid && c.userId == uid) with
  | none => GetCatResult.notFound
  | some c => GetCatResult.ok c

/-! ## Task creation (api/tasks/route.ts `POST`, task.actions.ts
`createTask`, zod `taskCreateSchema`, Mongoose `taskSchema`) -/

/-- The parsed create payload.  `status`/`priority` are `none` when omitted
(the zod schema then defaults them); `description`, `dueDate`, `categoryId`
are optional. -/
structure TaskCreatePayload where
  title : String
  description : Option String := none
  status : Option TaskStatus := none
  priority : Option TaskPriority := none
  dueDate : Option Nat := none
  categoryId : Option Nat := none
deriving DecidableEq, Repr

/-- The zod `taskCreateSchema` checks: title 3–100 characters, description
at most 1000; enum and date shapes are enforced by the field types. -/
def zodCreateValid (p : TaskCreatePayload) : Bool :=
  3 ≤ p.title.length && p.title.length ≤ 100
    && (match p.description with
        | none => true
        | some d => d.length ≤ 1000)

/-- The Mongoose `taskSchema` validators run at save time, after the `trim`
setter: trimmed title 3–100 characters, trimmed description at most 1000. -/
def mongooseCreateValid (p : TaskCreatePayload) : Bool :=
  3 ≤ (strTrim p.title).length && (strTrim p.title).length ≤ 100
    && (match p.description with
        | none => true
        | some d => (strTrim d).length ≤ 1000)

/-- The document inserted by `Task.create`: trimmed strings, zod defaults
`TODO` / `MEDIUM` when absent, the caller's `userId`, fresh id, timestamps.
No check of any kind is made against the categories collection. -/
def newTaskOf (db : DB) (uid : Nat) (p : TaskCreatePayload) (now : Nat) : Task :=
  { id := db.nextId
    title := strTrim p.title
    description := p.description.map strTrim
    status := p.status.getD TaskStatus.TODO
    priority := p.priority.getD TaskPriority.MEDIUM
    dueDate := p.dueDate
    categoryId := p.categoryId
    userId := uid
    createdAt := now
    updatedAt := now }

/-- Outcome of task creation.  `invalid` is the 400 zod rejection,
`dbError` a Mongoose validation failure surfaced as a 500. -/
inductive CreateTaskResult where
  | ok (t : Task)
  | invalid
  | dbError
deriving DecidableEq, Repr

/-- `createTask`: zod-validate, then insert.  The referenced `categoryId`,
if any, is stored as given — the source never consults the categories
collection here. -/
def createTask (db : DB) (uid : Nat) (p : TaskCreatePayload) (now : Nat) :
    CreateTaskResult × DB :=
  if !(zodCreateValid p) then (CreateTaskResult.invalid, db)
  else if !(mongooseCreateValid p) then (CreateTaskResult.dbError, db)
  else
    let t := newTaskOf db uid p now
    (CreateTaskResult.ok t,
      { db with tasks := db.tasks ++ [t], nextId := db.nextId + 1 })

/-! ## Task update (api/tasks/[id]/route.ts `PATCH`, task.actions.ts
`updateTask`, zod `taskUpdateSchema`) -/

/-- The parsed partial-update payload.  Outer `none` = field absent from the
payload; for the nullable fields, `some none` = explicit `null` (clear). -/
structure TaskUpdatePayload where
  title : Option String := none
  description : Option (Option String) := none
  status : Option TaskStatus := none
  priority : Option TaskPriority := none
  dueDate : Option (Option Nat) := none
  categoryId : Option (Option Nat) := none
deriving DecidableEq, Repr

/-- zod `taskUpdateSchema`: per-field constraints, applied only to the
fields present. -/
def zodUpdateValid (p : TaskUpdatePayload) : Bool :=
  (match p.title with
    | none => true
    | some s => 3 ≤ s.length && s.length ≤ 100)
    && (match p.description with
        | some (some d) => d.length ≤ 1000
        | _ => true)

/-- Mongoose update validators (`runValidators: true`) on the `$set` paths,
after the `trim` setter. -/
def mongooseUpdateValid (p : TaskUpdatePayload) : Bool :=
  (match p.title with
    | none => true
    | some s => 3 ≤ (strTrim s).length && (strTrim s).length ≤ 100)
    && (match p.description with
        | some (some d) => (strTrim d).length ≤ 1000
        | _ => true)

/-- The `$set` merge: absent fields keep their prior value, explicit `null`
clears a nullable field, present strings pass through the `trim` setter;
`timestamps: true` refreshes `updatedAt`. -/
def applyUpdate (t : Task) (p : TaskUpdatePayload) (now : Nat) : Task :=
  { t with
    title := match p.title with
      | none => t.title
      | some s => strTrim s
    description := match p.description with
      | none => t.description
      | some none => none
      | some (some d) => some (strTrim d)
    status := p.status.getD t.status
    priority := p.priority.getD t.priority
    dueDate := match p.dueDate with
      | none => t.dueDate
      | some v => v
    categoryId := match p.categoryId with
      | none => t.categoryId
      | some v => v
    updatedAt := now }

/-- Outcome of a task update. -/
inductive UpdateTaskResult where
  | ok (t : Task) (category : Option (Nat × String))
  | invalid
  | notFound
  | accessDenied
  | dbError
deriving DecidableEq, Repr

/-- `updateTask`: validate the present fields, global `findById`, `404` when
absent, `403` when foreign, then `findByIdAndUpdate` with `$set` and return
the updated record with its resolved category. -/
def updateTask (db : DB) (uid tid : Nat) (p : TaskUpdatePayload) (now : Nat) :
    UpdateTaskResult × DB :=
  if !(zodUpdateValid p) then (UpdateTaskResult.invalid, db)
  else
    match findTask db tid with
    | none => (UpdateTaskResult.notFound, db)
    | some t =>
      if t.userId ≠ uid then (UpdateTaskResult.accessDenied, db)
      else if !(mongooseUpdateValid p) then (UpdateTaskResult.dbError, db)
      else
        let t2 := applyUpdate t p now
        (UpdateTaskResult.ok t2 (resolveCategory db t2.categoryId),
          { db with tasks := db.tasks.map (fun x => if x.id == tid then t2 else x) })

/-! ## Category deletion: the HTTP endpoint and the server action
(api/categories/[id]/route.ts `DELETE`, category.actions.ts
`deleteCategory`) -/

/-- The number of tasks, across ALL users, whose `categoryId` references the
category (src: `Task.countDocuments(\x7b categoryId: id \x7d)` — the filter
has no `userId` key). -/
def countReferencing (db : DB) (cid : Nat) : Nat :=
  (db.tasks.filter (fun t => t.categoryId == some cid)).length

/-- Outcome of the HTTP category deletion. -/
inductive ApiDeleteCatResult where
  | success
  | notFound
  | accessDenied
  | inUse (n : Nat)
deriving DecidableEq, Repr

/-- The endpoint: global `findById`, `404` when absent, `403` when foreign,
block with the referencing-task count when it is positive, else
`findByIdAndDelete`. -/
def apiDeleteCategory (db : DB) (uid cid : Nat) : ApiDeleteCatResult × DB :=
  match findCat db cid with
  | none => (ApiDeleteCatResult.notFound, db)
  | some c =>
    if c.userId ≠ uid then (ApiDeleteCatResult.accessDenied, db)
    else
      let n := countReferencing db cid
      if 0 < n then (ApiDeleteCatResult.inUse n, db)
      else
        (ApiDeleteCatResult.success,
          { db with categories := db.categories.eraseP (fun x => x.id == cid) })

/-- Outcome of the server-action category deletion. -/
inductive ActionDeleteCatResult where
  | success
  | notFound
deriving DecidableEq, Repr

/-- The server action: a single `findOneAndDelete` on id AND owner — it
never counts referencing tasks. -/
def actionDeleteCategory (db : DB) (uid cid : Nat) : ActionDeleteCatResult × DB :=
  match db.categories.find? (fun c => c.id == cid && c.userId == uid) with
  | none => (ActionDeleteCatResult.notFound, db)
  | some _ =>
    (ActionDeleteCatResult.success,
      { db with categories := db.categories.eraseP (fun c => c.id == cid && c.userId == uid) })

/-! ## Registration (api/register/route.ts `POST`, zod `registerSchema`,
Mongoose `userSchema`) -/

/-- The registration payload. -/
structure RegisterPayload where
  name : String
  email : String
  password : String
deriving DecidableEq, Repr

/-- Model of the `userSchema` email pattern: no whitespace, an `@` preceded
by at least one character, and after it a `.` with at least one character on
each side. -/
def emailTailOk : List Char → Bool
  | [] => false
  | c :: rest => (c == '.' && !rest.isEmpty) || emailTailOk rest

/-- After the `@`: a nonempty segment, then a `.`, then a nonempty segment. -/
def emailDomainOk : List Char → Bool
  | [] => false
  | _ :: rest => emailTailOk rest

/-- Search for an `@` that is not the first character and has a well-formed
domain part after it. -/
def emailAtOk : List Char → Bool
  | [] => false
  | c :: rest => (c == '@' && emailDomainOk rest) || emailAtOk rest

/-- Well-formed address: the `userSchema` regex `^\S+@\S+\.\S+$`. -/
def emailFormatOk (s : String) : Bool :=
  s.data.all (fun c => !c.isWhitespace)
    && (match s.data with
        | [] => false
        | _ :: rest => emailAtOk rest)

/-- zod `registerSchema`: name 2–50, valid email, password 8–100. -/
def registerValid (p : RegisterPayload) : Bool :=
  2 ≤ p.name.length && p.name.length ≤ 50
    && emailFormatOk p.email
    && 8 ≤ p.password.length && p.password.length ≤ 100

/-- The public projection returned to the caller — by construction it has no
password field. -/
structure PublicUser where
  id : Nat
  name : String
  email : String
  role : UserRole
  createdAt : Nat
deriving DecidableEq, Repr

/-- Outcome of registration. -/
inductive RegisterResult where
  | ok (u : PublicUser)
  | invalid
  | duplicateEmail
deriving DecidableEq, Repr

/-- `POST /api/register`: validate, look up the email (the `lowercase`
setter runs on both the stored value and the query value, so the comparison
is on lowercased emails), reject a duplicate with 409, else store a new user
whose password is `bcrypt.hash(password, 12)` and whose role defaults to
`USER`, and return only the public fields.  The hash primitive is an
external collaborator, abstracted as the `hashFn` parameter; the source
invokes it with cost factor 12. -/
def register (hashFn : Nat → String → String) (db : DB) (p : RegisterPayload)
    (now : Nat) : RegisterResult × DB :=
  if !(registerValid p) then (RegisterResult.invalid, db)
  else if db.users.any (fun u => u.email == lowerStr p.email) then
    (RegisterResult.duplicateEmail, db)
  else
    let u : UserRec :=
      { id := db.nextId
        name := p.name
        email := lowerStr p.email
        password := hashFn 12 p.password
        role := UserRole.USER
        createdAt := now }
    (RegisterResult.ok
      { id := u.id, name := u.name, email := u.email, role := u.role,
        createdAt := u.createdAt },
      { db with users := db.users ++ [u], nextId := db.nextId + 1 })

/-! ## Concrete instances used by the witnesses and counterexamples -/

/-- A default task record, adjusted per instance with record updates. -/
def baseTask : Task :=
  { id := 0
    title := "Sample task"
    description := none
    status := TaskStatus.TODO
    priority := TaskPriority.MEDIUM
    dueDate := none
    categoryId := none
    userId := 0
    createdAt := 0
    updatedAt := 0 }

/-- C1: a task owned by user 1. -/
def tIso : Task := { baseTask with id := 1, title := "Mine alone", userId := 1 }

/-- C1: a category owned by user 1. -/
def cIso : Category := { id := 2, name := "Private", userId := 1, createdAt := 0, updatedAt := 0 }

/-- C1: store holding only user 1's data. -/
def dbIso : DB := { tasks := [tIso], categories := [cIso], users := [], nextId := 3 }

/-- C2: a category owned by user 2. -/
def catC2 : Category := { id := 10, name := "Work", userId := 2, createdAt := 0, updatedAt := 0 }

/-- C2: store with only user 2's category. -/
def dbC2 : DB := { tasks := [], categories := [catC2], users := [], nextId := 11 }

/-- C2: user 1's create payload referencing user 2's category. -/
def pC2 : TaskCreatePayload := { title := "Cross tenant", categoryId := some 10 }

/-- C3: a task owned by user 1. -/
def tC3 : Task := { baseTask with id := 5, title := "Owner only", userId := 1 }

/-- C3: store holding that task. -/
def dbC3 : DB := { tasks := [tC3], categories := [], users := [], nextId := 6 }

/-- C4: a category owned by user 1. -/
def catC4 : Category := { id := 20, name := "Busy", userId := 1, createdAt := 0, updatedAt := 0 }

/-- C4: a task of user 1 referencing that category. -/
def taskC4 : Task := { baseTask with id := 21, title := "uses category", categoryId := some 20, userId := 1 }

/-- C4: store where the category is referenced by one task. -/
def dbC4 : DB := { tasks := [taskC4], categories := [catC4], users := [], nextId := 22 }

/-- C5: bcrypt stand-in for the witness (any function works). -/
def hashW (cost : Nat) (pw : String) : String := toString cost ++ pw

/-- C5: an existing user whose email is stored lowercased. -/
def uAlice : UserRec :=
  { id := 1
    name := "Alice"
    email := "alice@example.com"
    password := "stored-hash"
    role := UserRole.USER
    createdAt := 0 }

/-- C5: store holding that user. -/
def dbAlice : DB := { tasks := [], categories := [], users := [uAlice], nextId := 2 }

/-- C5: a second registration of the same address in different case. -/
def pAlice2 : RegisterPayload :=
  { name := "Alice", email := "Alice@Example.com", password := "password1" }

/-- C6: the i-th of 25 tasks of user 7. -/
def mkT (i : Nat) : Task := { baseTask with id := i, userId := 7, createdAt := i, updatedAt := i }

/-- C6: store with 25 matching tasks. -/
def db25 : DB := { tasks := (List.range 25).map mkT, categories := [], users := [], nextId := 100 }

/-- C6: page 3 of size 10. -/
def q3 : TaskQuery := { page := 3, limit := 10 }

/-- C7: user 1's task whose title contains no period. -/
def tDot : Task := { baseTask with id := 1, title := "abc", userId := 1 }

/-- C7: store holding that task. -/
def dbDot : DB := { tasks := [tDot], categories := [], users := [], nextId := 2 }

/-- C7: a search for the regex metacharacter ".". -/
def qDot : TaskQuery := { search := "." }

/-- C7 witness: search text without metacharacters. -/
def qUrgent : TaskQuery := { search := "urgent" }

/-- C7 witness: user 3's task matched through its description. -/
def tUrgent : Task :=
  { baseTask with id := 2, title := "Write report", description := some "This is Urgent!", userId := 3 }

/-- C8/C9 share this task owned by user 1. -/
def tC8 : Task :=
  { baseTask with
    id := 5
    title := "hello"
    description := some "world"
    priority := TaskPriority.HIGH
    dueDate := some 3
    userId := 1 }

/-- C8: store holding that task. -/
def dbC8 : DB := { tasks := [tC8], categories := [], users := [], nextId := 6 }

/-- C8: an update supplying a title with surrounding whitespace. -/
def pPadT : TaskUpdatePayload := { title := some " abcde" }

/-- C8: a status-only partial update. -/
def pStatusOnly : TaskUpdatePayload := { status := some TaskStatus.COMPLETED }

/-- C9: the empty store. -/
def dbE : DB := { tasks := [], categories := [], users := [], nextId := 0 }

/-- C9: a create payload whose title carries leading whitespace. -/
def pPad : TaskCreatePayload := { title := " abcde" }

/-- C9 witness: a category owned by user 4. -/
def catC9 : Category := { id := 10, name := "Work", userId := 4, createdAt := 0, updatedAt := 0 }

/-- C9 witness: store holding that category. -/
def dbC9 : DB := { tasks := [], categories := [catC9], users := [], nextId := 11 }

/-- C9 witness: a fully specified payload. -/
def pC9 : TaskCreatePayload :=
  { title := "Ship it"
    description := some "soon"
    status := some TaskStatus.IN_PROGRESS
    priority := some TaskPriority.HIGH
    dueDate := some 99
    categoryId := some 10 }

/-- C10: a category owned by user 1. -/
def catC10 : Category := { id := 40, name := "Shared ref", userId := 1, createdAt := 0, updatedAt := 0 }

/-- C10: one referencing task of the owner and two of user 2. -/
def dbC10 : DB :=
  { tasks :=
      [ { baseTask with id := 41, title := "own task", categoryId := some 40, userId := 1 },
        { baseTask with id := 42, title := "foreign", categoryId := some 40, userId := 2 },
        { baseTask with id := 43, title := "foreign too", categoryId := some 40, userId := 2 } ]
    categories := [catC10]
    users := []
    nextId := 44 }

/-! ## Helper lemmas -/

/-- Inserting with `insertLe` is a permutation of consing. -/
theorem insertLe_perm (le : α → α → Bool) (a : α) (l : List α) :
    (insertLe le a l).Perm (a :: l) := by
  induction l with
  | nil => exact List.Perm.refl _
  | cons b l ih =>
    by_cases h : le a b = true
    · simp [insertLe, h]
    · simp only [insertLe, h]
      rw [if_neg (by simp [h])]
      exact List.Perm.trans (List.Perm.cons b ih) (List.Perm.swap a b l)

/-- `sortLe` returns a permutation of its input. -/
theorem sortLe_perm (le : α → α → Bool) (l : List α) :
    (sortLe le l).Perm l := by
  induction l with
  | nil => exact List.Perm.refl _
  | cons a l ih =>
    exact List.Perm.trans (insertLe_perm le a (sortLe le l)) (List.Perm.cons a ih)

/-- A filtered list splits into the part satisfying a second predicate and
the part refuting it. -/
theorem length_filter_add_not (l : List α) (q : α → Bool) :
    (l.filter q).length + (l.filter (fun a => !q a)).length = l.length := by
  induction l with
  | nil => rfl
  | cons a l ih =>
    by_cases h : q a = true <;> simp [List.filter, h] <;> omega

/-- A task in the returned page passed the query filter. -/
theorem filter_of_mem_items {db : DB} {uid : Nat} {q : TaskQuery} {t : Task}
    (h : t ∈ (getTasksRaw db uid q).items) : matchesFilter uid q t = true := by
  have h1 : t ∈ sortLe (taskLe q.sortBy q.sortOrder) (db.tasks.filter (matchesFilter uid q)) :=
    List.mem_of_mem_drop (List.mem_of_mem_take h)
  have h2 : t ∈ db.tasks.filter (matchesFilter uid q) :=
    (sortLe_perm _ _).mem_iff.1 h1
  exact List.of_mem_filter h2

/-! ## Claim C1 -/

/-- Claim C1: tasks and categories of user `u1` never appear in the result
of a list or get operation invoked as a different user `u2`, for every
filter, sort and pagination parameter value: every listed task or category
and every record returned by a get is owned by the caller. -/
theorem user_isolation (db : DB) (u1 u2 : Nat) (hne : u1 ≠ u2)
    (t : Task) (ht : t ∈ db.tasks) (htu : t.userId = u1)
    (c : Category) (hc : c ∈ db.categories) (hcu : c.userId = u1)
    (q : TaskQuery) (tid cid : Nat) :
    t ∉ (getTasksRaw db u2 q).items ∧
    (∀ r cat, getTaskById db u2 tid = GetTaskResult.ok r cat → r ≠ t) ∧
    c ∉ getCategories db u2 ∧
    (∀ r, getCategoryById db u2 cid = GetCatResult.ok r → r ≠ c) := by
  refine ⟨?_, ?_, ?_, ?_⟩
  · intro hmem
    have hf := filter_of_mem_items hmem
    have hu : t.userId = u2 := by
      simp only [matchesFilter, Bool.and_eq_true, beq_iff_eq] at hf
      exact hf.1.1.1.1
    exact hne (htu ▸ hu)
  · intro r cat hok heq
    cases hfind : findTask db tid with
    | none => simp [getTaskById, hfind] at hok
    | some t0 =>
      by_cases hu : t0.userId = u2
      · simp [getTaskById, hfind, hu] at hok
        apply hne
        rw [← htu, ← heq, ← hok.1]
        exact hu
      · simp [getTaskById, hfind, hu] at hok
  · intro hmem
    have h2 : c ∈ db.categories.filter (fun x => x.userId == u2) :=
      (sortLe_perm _ _).mem_iff.1 hmem
    have h3 := List.of_mem_filter h2
    exact hne (hcu ▸ eq_of_beq h3)
  · intro r hok heq
    cases hfind : db.categories.find? (fun x => x.id == cid && x.userId == u2) with
    | none => simp [getCategoryById, hfind] at hok
    | some c0 =>
      have hp := List.find?_some hfind
      have hu : c0.userId = u2 := by
        simp only [Bool.and_eq_true, beq_iff_eq] at hp
        exact hp.2
      simp [getCategoryById, hfind] at hok
      apply hne
      rw [← hcu, ← heq, ← hok]
      exact hu

/-- Claim C1 witness: the concrete store of user 1, queried as user 2. -/
theorem user_isolation_witness :
    tIso ∉ (getTasksRaw dbIso 2 {}).items ∧ cIso ∉ getCategories dbIso 2 := by
  have H := user_isolation dbIso 1 2 (by decide) tIso (by decide) (by decide)
    cIso (by decide) (by decide) {} 1 2
  exact ⟨H.1, H.2.2.1⟩

/-! ## Claim C2 -/

/-- Claim C2 counterexample: user 1 creates a task whose `categoryId` is
category 10, owned by user 2 — the create succeeds and persists the task
with that reference, instead of rejecting with `InvalidCategory` and
persisting nothing. -/
theorem createTask_foreign_category_cx :
    catC2.userId = 2 ∧
    (createTask dbC2 1 pC2 5).1 = CreateTaskResult.ok (newTaskOf dbC2 1 pC2 5) ∧
    newTaskOf dbC2 1 pC2 5 ∈ (createTask dbC2 1 pC2 5).2.tasks ∧
    (newTaskOf dbC2 1 pC2 5).categoryId = some 10 ∧
    (newTaskOf dbC2 1 pC2 5).userId = 1 := by decide

/-- Claim C2 (amended): the create operation performs no category existence
or ownership check at all: every schema-valid payload is inserted with its
`categoryId` stored as given, and the outcome is unchanged whatever the
categories collection contains — in particular a reference to another
user's category is persisted. -/
theorem createTask_no_category_check (db : DB) (uid : Nat) (p : TaskCreatePayload)
    (now : Nat) (h1 : zodCreateValid p = true) (h2 : mongooseCreateValid p = true) :
    (createTask db uid p now).1 = CreateTaskResult.ok (newTaskOf db uid p now) ∧
    (createTask db uid p now).2.tasks = db.tasks ++ [newTaskOf db uid p now] ∧
    (newTaskOf db uid p now).categoryId = p.categoryId ∧
    (∀ cs : List Category,
      (createTask { db with categories := cs } uid p now).1
        = CreateTaskResult.ok (newTaskOf db uid p now)) := by
  refine ⟨?_, ?_, rfl, ?_⟩
  · simp [createTask, h1, h2]
  · simp [createTask, h1, h2]
  · intro cs
    simp [createTask, h1, h2, newTaskOf]

/-- Claim C2 witness: the amended statement applied to the concrete
cross-tenant store. -/
theorem createTask_no_category_check_witness :
    (createTask dbC2 1 pC2 5).2.tasks = dbC2.tasks ++ [newTaskOf dbC2 1 pC2 5] :=
  (createTask_no_category_check dbC2 1 pC2 5 (by decide) (by decide)).2.1

/-! ## Claim C3 -/

/-- Claim C3 counterexample: getting user 1's task 5 as user 2 yields the
`accessDenied` outcome, while getting the absent task 6 yields `notFound` —
the two outcomes are distinguishable, so a foreign task is not reported as
`TaskNotFound`. -/
theorem getTaskById_existence_leak_cx :
    getTaskById dbC3 2 5 = GetTaskResult.accessDenied ∧
    getTaskById dbC3 2 6 = GetTaskResult.notFound ∧
    GetTaskResult.accessDenied ≠ GetTaskResult.notFound := by decide

/-- Claim C3 (amended): the get returns the task with its resolved category
when it exists and is owned by the caller, and `notFound` when wholly
absent; but a task that exists and is owned by another user yields the
distinct `accessDenied` outcome, so absence and foreign ownership are
distinguishable (an existence leak). -/
theorem getTaskById_cases (db : DB) (uid tid : Nat) :
    (findTask db tid = none → getTaskById db uid tid = GetTaskResult.notFound) ∧
    (∀ t, findTask db tid = some t → t.userId ≠ uid →
      getTaskById db uid tid = GetTaskResult.accessDenied) ∧
    (∀ t, findTask db tid = some t → t.userId = uid →
      getTaskById db uid tid = GetTaskResult.ok t (resolveCategory db t.categoryId)) := by
  refine ⟨?_, ?_, ?_⟩
  · intro h
    simp [getTaskById, h]
  · intro t h hne
    simp [getTaskById, h, hne]
  · intro t h he
    simp [getTaskById, h, he]

/-- Claim C3 witness: the three cases at the concrete store. -/
theorem getTaskById_cases_witness :
    getTaskById dbC3 2 5 = GetTaskResult.accessDenied ∧
    getTaskById dbC3 2 6 = GetTaskResult.notFound ∧
    getTaskById dbC3 1 5 = GetTaskResult.ok tC3 none :=
  ⟨(getTaskById_cases dbC3 2 5).2.1 tC3 (by decide) (by decide),
   (getTaskById_cases dbC3 2 6).1 (by decide),
   (getTaskById_cases dbC3 1 5).2.2 tC3 (by decide) (by decide)⟩

/-! ## Claim C4 -/

/-- Claim C4 counterexample: the `deleteCategory` server action deletes
category 20 although one stored task references it — no `CategoryInUse`
rejection, and the category does not remain stored. -/
theorem deleteCategory_action_bypasses_check_cx :
    countReferencing dbC4 20 = 1 ∧
    (actionDeleteCategory dbC4 1 20).1 = ActionDeleteCatResult.success ∧
    (actionDeleteCategory dbC4 1 20).2.categories = [] := by decide

/-- Claim C4 (amended): the HTTP DELETE endpoint behaves as claimed — on an
owned category it rejects with `CategoryInUse` carrying the referencing
count and leaves the store unchanged when that count is positive, and
removes the category when the count is zero — but the `deleteCategory`
server action deletes the category without ever counting referencing
tasks. -/
theorem apiDeleteCategory_in_use (db : DB) (uid cid : Nat) (c : Category)
    (hfind : findCat db cid = some c) (hown : c.userId = uid) :
    (0 < countReferencing db cid →
      (apiDeleteCategory db uid cid).1 = ApiDeleteCatResult.inUse (countReferencing db cid) ∧
      (apiDeleteCategory db uid cid).2 = db) ∧
    (countReferencing db cid = 0 →
      (apiDeleteCategory db uid cid).1 = ApiDeleteCatResult.success ∧
      (apiDeleteCategory db uid cid).2.categories
        = db.categories.eraseP (fun x => x.id == cid) ∧
      (apiDeleteCategory db uid cid).2.categories.length + 1 = db.categories.length ∧
      (apiDeleteCategory db uid cid).2.tasks = db.tasks) := by
  constructor
  · intro h
    constructor
    · simp [apiDeleteCategory, hfind, hown, h]
    · simp [apiDeleteCategory, hfind, hown, h]
  · intro h
    refine ⟨?_, ?_, ?_, ?_⟩
    · simp [apiDeleteCategory, hfind, hown, h]
    · simp [apiDeleteCategory, hfind, hown, h]
    · have hfind2 : List.find? (fun x => x.id == cid) db.categories = some c := hfind
      have hmem : c ∈ db.categories := List.mem_of_find?_eq_some hfind2
      have hpc0 := List.find?_some hfind2
      have hlen : (db.categories.eraseP (fun x => x.id == cid)).length
          = db.categories.length - 1 := List.length_eraseP_of_mem hmem hpc0
      have hpos : 0 < db.categories.length := List.length_pos.2 (by
        intro hnil
        rw [hnil] at hmem
        cases hmem)
      simp [apiDeleteCategory, hfind, hown, h, hlen]
      omega
    · simp [apiDeleteCategory, hfind, hown, h]

/-- Claim C4 witness: the endpoint blocks the concrete in-use deletion with
the count. -/
theorem apiDeleteCategory_in_use_witness :
    (apiDeleteCategory dbC4 1 20).1 = ApiDeleteCatResult.inUse (countReferencing dbC4 20) ∧
    countReferencing dbC4 20 = 1 :=
  ⟨((apiDeleteCategory_in_use dbC4 1 20 catC4 (by decide) (by decide)).1 (by decide)).1,
   by decide⟩

/-! ## Claim C10 -/

/-- Claim C10: the referencing-task count that blocks a category deletion at
the HTTP endpoint is computed over all stored tasks whose `categoryId`
equals the category, with no restriction to the caller: it always splits as
the caller's referencing tasks plus the referencing tasks owned by other
users, so foreign tasks are included in the reported count. -/
theorem apiDeleteCategory_count_global (db : DB) (uid cid n : Nat)
    (h : (apiDeleteCategory db uid cid).1 = ApiDeleteCatResult.inUse n) :
    n = countReferencing db cid ∧
    n = ((db.tasks.filter (fun t => t.categoryId == some cid)).filter
          (fun t => t.userId == uid)).length
      + ((db.tasks.filter (fun t => t.categoryId == some cid)).filter
          (fun t => !(t.userId == uid))).length := by
  have hn : n = countReferencing db cid := by
    cases hfind : findCat db cid with
    | none => simp [apiDeleteCategory, hfind] at h
    | some c =>
      by_cases hown : c.userId = uid
      · by_cases hpos : 0 < countReferencing db cid
        · simp [apiDeleteCategory, hfind, hown, hpos] at h
          exact h.symm
        · simp [apiDeleteCategory, hfind, hown, hpos] at h
      · simp [apiDeleteCategory, hfind, hown] at h
  refine ⟨hn, ?_⟩
  rw [hn]
  exact (length_filter_add_not (db.tasks.filter (fun t => t.categoryId == some cid))
    (fun t => t.userId == uid)).symm

/-- Claim C10 witness: the blocked count over the concrete store is 3 — the
owner's one referencing task plus the two referencing tasks of user 2. -/
theorem apiDeleteCategory_count_global_witness :
    (apiDeleteCategory dbC10 1 40).1 = ApiDeleteCatResult.inUse 3 ∧
    3 = ((dbC10.tasks.filter (fun t => t.categoryId == some 40)).filter
          (fun t => t.userId == 1)).length
      + ((dbC10.tasks.filter (fun t => t.categoryId == some 40)).filter
          (fun t => !(t.userId == 1))).length :=
  ⟨by decide, (apiDeleteCategory_count_global dbC10 1 40 3 (by decide)).2⟩

/-! ## Claim C5 -/

/-- Claim C5: with a well-formed payload, registration fails with
`DuplicateEmail` and leaves the store unchanged when a user with the same
email already exists under case-insensitive comparison (stored emails being
lowercased by the schema setter); otherwise exactly one new user is
persisted, with role `USER` and the password hashed by the external bcrypt
primitive invoked with cost factor 12 ≥ 12, and the returned record is the
`PublicUser` projection — a structure with no password field. -/
theorem register_spec (hashFn : Nat → String → String) (db : DB)
    (p : RegisterPayload) (now : Nat)
    (hv : registerValid p = true)
    (hinv : ∀ u ∈ db.users, u.email = lowerStr u.email) :
    ((∃ u ∈ db.users, lowerStr u.email = lowerStr p.email) →
      (register hashFn db p now).1 = RegisterResult.duplicateEmail ∧
      (register hashFn db p now).2 = db) ∧
    ((∀ u ∈ db.users, lowerStr u.email ≠ lowerStr p.email) →
      (register hashFn db p now).2.users
          = db.users
            ++ [{ id := db.nextId
                  name := p.name
                  email := lowerStr p.email
                  password := hashFn 12 p.password
                  role := UserRole.USER
                  createdAt := now }] ∧
      (register hashFn db p now).1
          = RegisterResult.ok
              { id := db.nextId
                name := p.name
                email := lowerStr p.email
                role := UserRole.USER
                createdAt := now } ∧
      12 ≥ 12 ∧
      (register hashFn db p now).2.tasks = db.tasks ∧
      (register hashFn db p now).2.categories = db.categories) := by
  constructor
  · rintro ⟨u, hu, he⟩
    have hany : db.users.any (fun x => x.email == lowerStr p.email) = true := by
      refine List.any_eq_true.2 ⟨u, hu, ?_⟩
      rw [beq_iff_eq, hinv u hu]
      exact he
    refine ⟨?_, ?_⟩ <;> simp [register, hv, hany]
  · intro hall
    have hany : db.users.any (fun x => x.email == lowerStr p.email) = false := by
      rw [List.any_eq_false]
      intro u hu
      rw [Bool.not_eq_true, beq_eq_false_iff_ne, hinv u hu]
      exact hall u hu
    refine ⟨?_, ?_, by omega, ?_, ?_⟩ <;> simp [register, hv, hany]

/-- Claim C5 witness: registering `Alice@Example.com` over a store that
already holds `alice@example.com` is rejected as a duplicate; registering
into an empty store persists the user. -/
theorem register_spec_witness :
    (register hashW dbAlice pAlice2 7).1 = RegisterResult.duplicateEmail ∧
    (register hashW dbAlice pAlice2 7).2 = dbAlice :=
  (register_spec hashW dbAlice pAlice2 7 (by decide) (by decide)).1 (by decide)

/-! ## Claim C6 -/

/-- Claim C6: for every list call, `total` is the number of records
matching the filter ignoring pagination, `totalPages` is the ceiling of
`total / limit`, and the returned page is the matching records in sort
order from offset `(page-1)*limit`, of length `min limit (total - offset)`
— hence at most `limit` items; the formatted response is the page mapped
through the response shaper. -/
theorem getTasks_pagination (db : DB) (uid : Nat) (q : TaskQuery)
    (hp : 1 ≤ q.page) (hl : 1 ≤ q.limit) :
    (getTasksRaw db uid q).total = (db.tasks.filter (matchesFilter uid q)).length ∧
    (getTasksRaw db uid q).totalPages = (getTasksRaw db uid q).total ⌈/⌉ q.limit ∧
    (getTasksRaw db uid q).items
      = ((sortLe (taskLe q.sortBy q.sortOrder) (db.tasks.filter (matchesFilter uid q))).drop
          ((q.page - 1) * q.limit)).take q.limit ∧
    (getTasksRaw db uid q).items.length
      = min q.limit ((getTasksRaw db uid q).total - (q.page - 1) * q.limit) ∧
    (getTasksRaw db uid q).items.length ≤ q.limit ∧
    getTasksFormatted db uid q = (getTasksRaw db uid q).items.map (formatTask db) := by
  have hsort : (sortLe (taskLe q.sortBy q.sortOrder)
      (db.tasks.filter (matchesFilter uid q))).length
      = (db.tasks.filter (matchesFilter uid q)).length :=
    (sortLe_perm _ _).length_eq
  have hitems : (getTasksRaw db uid q).items.length
      = min q.limit ((getTasksRaw db uid q).total - (q.page - 1) * q.limit) := by
    simp [getTasksRaw, List.length_take, List.length_drop, hsort]
  exact ⟨rfl, rfl, rfl, hitems, by rw [hitems]; exact Nat.min_le_left _ _, rfl⟩

/-- Claim C6 witness: 25 matching tasks with page size 10 — `total` is 25
on any page, `totalPages` is 3, and page 3 holds exactly 5 items. -/
theorem getTasks_pagination_witness :
    (1 ≤ q3.page ∧ 1 ≤ q3.limit) ∧
    (getTasksRaw db25 7 q3).total = 25 ∧
    (getTasksRaw db25 7 { page := 1, limit := 10 }).total = 25 ∧
    (getTasksRaw db25 7 q3).totalPages = 3 ∧
    (getTasksRaw db25 7 q3).items.length = 5 ∧
    (getTasksRaw db25 7 q3).items.length
      = min q3.limit ((getTasksRaw db25 7 q3).total - (q3.page - 1) * q3.limit) :=
  ⟨⟨by decide, by decide⟩, by decide, by decide, by decide, by decide,
    (getTasks_pagination db25 7 q3 (by decide) (by decide)).2.2.2.1⟩

/-! ## Claim C7 -/

/-- On a pattern with no `.` wildcard, the regex prefix match is the
case-insensitive literal prefix test. -/
theorem matchAtI_eq_prefixCIL (pat : List Char) (h : ∀ c ∈ pat, c ≠ '.') :
    ∀ l, matchAtI pat l = prefixCIL pat l := by
  induction pat with
  | nil => intro l; cases l <;> rfl
  | cons p ps ih =>
    intro l
    cases l with
    | nil => rfl
    | cons c cs =>
      have hp : (p == '.') = false :=
        beq_eq_false_iff_ne.2 (h p (List.mem_cons_self p ps))
      have ihl := ih (fun x hx => h x (List.mem_cons_of_mem p hx)) cs
      simp [matchAtI, prefixCIL, charMatchI, hp, ihl]

/-- On a pattern with no `.` wildcard, the unanchored regex search is the
case-insensitive substring test. -/
theorem regexFindI_eq_containsCIL (pat text : List Char) (h : ∀ c ∈ pat, c ≠ '.') :
    regexFindI pat text = containsCIL pat text := by
  induction text with
  | nil => rfl
  | cons c cs ih => simp [regexFindI, containsCIL, matchAtI_eq_prefixCIL pat h, ih]

/-- On metacharacter-free search text, the code's search predicate equals
the spec's case-insensitive substring predicate. -/
theorem searchMatches_eq_containsCI (pat s : String) (h : noRegexMeta pat = true) :
    searchMatches pat s = containsCI pat s := by
  have hdot : ∀ c ∈ pat.data, c ≠ '.' := by
    intro c hc hceq
    have hall := List.all_eq_true.1 h c hc
    rw [hceq] at hall
    simp [regexMetaChars] at hall
  exact regexFindI_eq_containsCIL pat.data s.data hdot

/-- Claim C7 counterexample: the search text "." (a regex metacharacter)
returns user 1's task titled "abc" although "." does not occur as a literal
substring of the title and the task has no description — the filter is
regex matching, not substring matching, for general search text. -/
theorem search_not_substring_cx :
    qDot.search = "." ∧
    tDot ∈ (getTasksRaw dbDot 1 qDot).items ∧
    containsCI "." tDot.title = false ∧
    tDot.description = none := by decide

/-- Claim C7 (amended): for search text free of regex metacharacters, a
task of the calling user satisfies the list filter (with the other filters
absent) exactly when the search text occurs case-insensitively as a literal
substring of its title or of its description; for search text containing
metacharacters the filter follows regex semantics instead. -/
theorem search_filter_substring (uid : Nat) (q : TaskQuery) (t : Task)
    (hmeta : noRegexMeta q.search = true) (hne : q.search ≠ "")
    (hu : t.userId = uid) (hs : q.status = "") (hp : q.priority = "")
    (hc : q.categoryId = none) :
    matchesFilter uid q t = true
      ↔ (containsCI q.search t.title = true
          ∨ ∃ d, t.description = some d ∧ containsCI q.search d = true) := by
  have hne2 : (q.search == "") = false := beq_eq_false_iff_ne.2 hne
  cases hd : t.description with
  | none =>
    simp [matchesFilter, hu, hs, hp, hc, hd, hne2,
      searchMatches_eq_containsCI _ _ hmeta]
  | some d =>
    simp [matchesFilter, hu, hs, hp, hc, hd, hne2,
      searchMatches_eq_containsCI _ _ hmeta]

/-- Claim C7 witness: metacharacter-free search text "urgent" matches a
task whose description contains "This is Urgent!". -/
theorem search_filter_substring_witness :
    matchesFilter 3 qUrgent tUrgent = true ∧
    containsCI "urgent" "This is Urgent!" = true :=
  ⟨(search_filter_substring 3 qUrgent tUrgent (by decide) (by decide)
      (by decide) rfl rfl rfl).2
        (Or.inr ⟨"This is Urgent!", rfl, by decide⟩),
   by decide⟩

/-! ## Claim C8 -/

/-- Claim C8 counterexample: an update whose payload supplies the title
" abcde" stores the trimmed "abcde" (the Mongoose `trim` setter runs on
`$set` paths), so a present field is not always set to the supplied
value. -/
theorem updateTask_trims_cx :
    pPadT.title = some " abcde" ∧
    (updateTask dbC8 1 5 pPadT 9).1
      = UpdateTaskResult.ok { tC8 with title := "abcde", updatedAt := 9 } none ∧
    "abcde" ≠ " abcde" := by decide

/-- Claim C8 (amended): on an owned task with a valid partial payload, the
update merges field-wise: every payload field that is absent keeps its
prior value, every present field is set to the supplied value except that
title and description are stored trimmed, an explicit `null` clears
`categoryId`/`description`/`dueDate`, other tasks are untouched, and the
system timestamp `updatedAt` is refreshed while `id`, `userId`, `createdAt`
are preserved; a status-only payload therefore changes the status and
nothing else among the payload fields. -/
theorem updateTask_merge (db : DB) (uid tid : Nat) (p : TaskUpdatePayload)
    (now : Nat) (t : Task)
    (hfind : findTask db tid = some t) (hown : t.userId = uid)
    (h1 : zodUpdateValid p = true) (h2 : mongooseUpdateValid p = true) :
    (updateTask db uid tid p now).1
       = UpdateTaskResult.ok (applyUpdate t p now)
           (resolveCategory db (applyUpdate t p now).categoryId) ∧
    (updateTask db uid tid p now).2.tasks
       = db.tasks.map (fun x => if x.id == tid then applyUpdate t p now else x) ∧
    (∀ x ∈ db.tasks, x.id ≠ tid → x ∈ (updateTask db uid tid p now).2.tasks) ∧
    (p.title = none → (applyUpdate t p now).title = t.title) ∧
    (∀ s, p.title = some s → (applyUpdate t p now).title = strTrim s) ∧
    (p.description = none → (applyUpdate t p now).description = t.description) ∧
    (p.description = some none → (applyUpdate t p now).description = none) ∧
    (∀ d, p.description = some (some d) →
      (applyUpdate t p now).description = some (strTrim d)) ∧
    (p.status = none → (applyUpdate t p now).status = t.status) ∧
    (∀ s, p.status = some s → (applyUpdate t p now).status = s) ∧
    (p.priority = none → (applyUpdate t p now).priority = t.priority) ∧
    (∀ x, p.priority = some x → (applyUpdate t p now).priority = x) ∧
    (p.dueDate = none → (applyUpdate t p now).dueDate = t.dueDate) ∧
    (∀ v, p.dueDate = some v → (applyUpdate t p now).dueDate = v) ∧
    (p.categoryId = none → (applyUpdate t p now).categoryId = t.categoryId) ∧
    (∀ v, p.categoryId = some v → (applyUpdate t p now).categoryId = v) ∧
    (applyUpdate t p now).id = t.id ∧
    (applyUpdate t p now).userId = t.userId ∧
    (applyUpdate t p now).createdAt = t.createdAt ∧
    (applyUpdate t p now).updatedAt = now := by
  have hmain : updateTask db uid tid p now
      = (UpdateTaskResult.ok (applyUpdate t p now)
          (resolveCategory db (applyUpdate t p now).categoryId),
        { db with tasks := db.tasks.map (fun x => if x.id == tid then applyUpdate t p now else x) }) := by
    simp [updateTask, h1, h2, hfind, hown]
  refine ⟨by rw [hmain], by rw [hmain], ?_, ?_, ?_, ?_, ?_, ?_, ?_, ?_, ?_, ?_,
    ?_, ?_, ?_, ?_, rfl, rfl, rfl, rfl⟩
  · intro x hx hne
    rw [hmain]
    have hxx : (fun y => if y.id == tid then applyUpdate t p now else y) x = x := by
      simp [beq_eq_false_iff_ne.2 hne]
    exact hxx ▸ List.mem_map_of_mem _ hx
  · intro h; simp [applyUpdate, h]
  · intro s h; simp [applyUpdate, h]
  · intro h; simp [applyUpdate, h]
  · intro h; simp [applyUpdate, h]
  · intro d h; simp [applyUpdate, h]
  · intro h; simp [applyUpdate, h]
  · intro s h; simp [applyUpdate, h]
  · intro h; simp [applyUpdate, h]
  · intro x h; simp [applyUpdate, h]
  · intro h; simp [applyUpdate, h]
  · intro v h; simp [applyUpdate, h]
  · intro h; simp [applyUpdate, h]
  · intro v h; simp [applyUpdate, h]

/-- Claim C8 witness: the status-only update on the concrete task changes
status alone among the payload fields. -/
theorem updateTask_merge_witness :
    (updateTask dbC8 1 5 pStatusOnly 9).1
      = UpdateTaskResult.ok (applyUpdate tC8 pStatusOnly 9)
          (resolveCategory dbC8 (applyUpdate tC8 pStatusOnly 9).categoryId) ∧
    (applyUpdate tC8 pStatusOnly 9).status = TaskStatus.COMPLETED ∧
    (applyUpdate tC8 pStatusOnly 9).title = tC8.title ∧
    (applyUpdate tC8 pStatusOnly 9).description = tC8.description ∧
    (applyUpdate tC8 pStatusOnly 9).priority = tC8.priority ∧
    (applyUpdate tC8 pStatusOnly 9).dueDate = tC8.dueDate ∧
    (applyUpdate tC8 pStatusOnly 9).categoryId = tC8.categoryId :=
  ⟨(updateTask_merge dbC8 1 5 pStatusOnly 9 tC8 (by decide) (by decide)
      (by decide) (by decide)).1,
   by decide, by decide, by decide, by decide, by decide, by decide⟩

/-! ## Claim C9 -/

/-- Claim C9 counterexample: creating the payload whose title is " abcde"
and reading the task back yields title "abcde" — the stored record differs
from the payload on the provided title field because the schema trims
it. -/
theorem create_get_roundtrip_cx :
    pPad.title = " abcde" ∧
    (createTask dbE 1 pPad 5).1 = CreateTaskResult.ok (newTaskOf dbE 1 pPad 5) ∧
    getTaskById (createTask dbE 1 pPad 5).2 1 0
      = GetTaskResult.ok (newTaskOf dbE 1 pPad 5) none ∧
    (newTaskOf dbE 1 pPad 5).title = "abcde" ∧
    "abcde" ≠ " abcde" := by decide

/-- Claim C9 (amended): for every valid create payload, create followed by
get on the new identifier returns the created record, which equals the
payload on every provided field except that title and description are
stored trimmed, and carries the defaults `TODO` / `MEDIUM` for an omitted
status / priority. -/
theorem create_get_roundtrip (db : DB) (uid : Nat) (p : TaskCreatePayload)
    (now : Nat)
    (h1 : zodCreateValid p = true) (h2 : mongooseCreateValid p = true)
    (hfresh : ∀ t ∈ db.tasks, t.id ≠ db.nextId) :
    (createTask db uid p now).1 = CreateTaskResult.ok (newTaskOf db uid p now) ∧
    getTaskById (createTask db uid p now).2 uid db.nextId
      = GetTaskResult.ok (newTaskOf db uid p now)
          (resolveCategory (createTask db uid p now).2 p.categoryId) ∧
    (newTaskOf db uid p now).title = strTrim p.title ∧
    (newTaskOf db uid p now).description = p.description.map strTrim ∧
    (newTaskOf db uid p now).status = p.status.getD TaskStatus.TODO ∧
    (newTaskOf db uid p now).priority = p.priority.getD TaskPriority.MEDIUM ∧
    (newTaskOf db uid p now).dueDate = p.dueDate ∧
    (newTaskOf db uid p now).categoryId = p.categoryId := by
  have hres : createTask db uid p now
      = (CreateTaskResult.ok (newTaskOf db uid p now),
        { db with
            tasks := db.tasks ++ [newTaskOf db uid p now]
            nextId := db.nextId + 1 }) := by
    simp [createTask, h1, h2]
  have hnone : db.tasks.find? (fun x => x.id == db.nextId) = none :=
    List.find?_eq_none.2 (fun x hx => by
      simp [beq_eq_false_iff_ne.2 (hfresh x hx)])
  have hfindnew : findTask (createTask db uid p now).2 db.nextId
      = some (newTaskOf db uid p now) := by
    rw [hres]
    show ((db.tasks ++ [newTaskOf db uid p now]).find? (fun x => x.id == db.nextId))
      = some (newTaskOf db uid p now)
    rw [List.find?_append, hnone]
    simp [newTaskOf]
  refine ⟨by rw [hres], ?_, rfl, rfl, rfl, rfl, rfl, rfl⟩
  have huid : (newTaskOf db uid p now).userId = uid := rfl
  simp only [getTaskById, hfindnew]
  rw [if_neg (by simp [huid])]
  rfl

/-- Claim C9 witness: a fully specified payload (with an owned category)
round-trips through create and get. -/
theorem create_get_roundtrip_witness :
    getTaskById (createTask dbC9 4 pC9 5).2 4 dbC9.nextId
      = GetTaskResult.ok (newTaskOf dbC9 4 pC9 5)
          (resolveCategory (createTask dbC9 4 pC9 5).2 pC9.categoryId) ∧
    (newTaskOf dbC9 4 pC9 5).title = pC9.title ∧
    (newTaskOf dbC9 4 pC9 5).status = TaskStatus.IN_PROGRESS ∧
    (newTaskOf dbC9 4 pC9 5).categoryId = some 10 :=
  ⟨(create_get_roundtrip dbC9 4 pC9 5 (by decide) (by decide) (by decide)).2.1,
   by decide, by decide, by decide⟩

end TaskTracker
